import Mathlib

/-!
Shallow embedding of the MichiganCG pathtracer rendering core
(src/library.hpp, src/library.cpp, src/reference.cpp, src/main.cpp).

Conventions of the embedding:
* C++ `float` arithmetic is embedded as exact real arithmetic over `ℝ`.
* The C++ value `Infinity`, used by the intersection routines to signal a
  miss, is embedded as `Option.none`; a finite intersection result is `some`.
* Randomness (`random_float`, `random_on_sphere`) is embedded by passing the
  drawn values explicitly as arguments (oracle style): a C++ call that draws
  a random point becomes a parameter holding that draw.
* C++ output parameters (`Vec3& normal`, `Vec3& incident`) become components
  of the returned value.
-/

namespace Pathtracer

/-- Vec3 from src/library.hpp (three float components, embedded as reals). -/
@[ext]
structure Vec3 where
  x : ℝ
  y : ℝ
  z : ℝ

/-- Color is an alias of Vec3, as in src/library.hpp. -/
abbrev Color := Vec3

/-- The splat constructor Vec3(value) from src/library.hpp. -/
noncomputable def Vec3.splat (value : ℝ) : Vec3 := ⟨value, value, value⟩

/-- Ray from src/library.hpp: origin and direction. -/
structure Ray where
  origin : Vec3
  direction : Vec3

/-- operator+ on Vec3 (componentwise), src/library.hpp line 64. -/
noncomputable instance : Add Vec3 := ⟨fun a b => ⟨a.x + b.x, a.y + b.y, a.z + b.z⟩⟩

/-- operator- on Vec3 (componentwise), src/library.hpp line 65. -/
noncomputable instance : Sub Vec3 := ⟨fun a b => ⟨a.x - b.x, a.y - b.y, a.z - b.z⟩⟩

/-- operator* on two Vec3 (componentwise), src/library.hpp line 66. -/
noncomputable instance : Mul Vec3 := ⟨fun a b => ⟨a.x * b.x, a.y * b.y, a.z * b.z⟩⟩

/-- unary operator- on Vec3, src/library.hpp line 71. -/
noncomputable instance : Neg Vec3 := ⟨fun a => ⟨-a.x, -a.y, -a.z⟩⟩

/-- operator* of a Vec3 by a float scalar, src/library.hpp line 68. -/
noncomputable instance : HMul Vec3 ℝ Vec3 := ⟨fun v s => ⟨v.x * s, v.y * s, v.z * s⟩⟩

/-- operator/ of a Vec3 by a float scalar, src/library.hpp line 69. -/
noncomputable instance : HDiv Vec3 ℝ Vec3 := ⟨fun v s => ⟨v.x / s, v.y / s, v.z / s⟩⟩

@[simp] theorem Vec3.add_x (a b : Vec3) : (a + b).x = a.x + b.x := rfl
@[simp] theorem Vec3.add_y (a b : Vec3) : (a + b).y = a.y + b.y := rfl
@[simp] theorem Vec3.add_z (a b : Vec3) : (a + b).z = a.z + b.z := rfl
@[simp] theorem Vec3.sub_x (a b : Vec3) : (a - b).x = a.x - b.x := rfl
@[simp] theorem Vec3.sub_y (a b : Vec3) : (a - b).y = a.y - b.y := rfl
@[simp] theorem Vec3.sub_z (a b : Vec3) : (a - b).z = a.z - b.z := rfl
@[simp] theorem Vec3.mul_x (a b : Vec3) : (a * b).x = a.x * b.x := rfl
@[simp] theorem Vec3.mul_y (a b : Vec3) : (a * b).y = a.y * b.y := rfl
@[simp] theorem Vec3.mul_z (a b : Vec3) : (a * b).z = a.z * b.z := rfl
@[simp] theorem Vec3.neg_x (a : Vec3) : (-a).x = -a.x := rfl
@[simp] theorem Vec3.neg_y (a : Vec3) : (-a).y = -a.y := rfl
@[simp] theorem Vec3.neg_z (a : Vec3) : (-a).z = -a.z := rfl
@[simp] theorem Vec3.smul_x (a : Vec3) (s : ℝ) : (a * s).x = a.x * s := rfl
@[simp] theorem Vec3.smul_y (a : Vec3) (s : ℝ) : (a * s).y = a.y * s := rfl
@[simp] theorem Vec3.smul_z (a : Vec3) (s : ℝ) : (a * s).z = a.z * s := rfl
@[simp] theorem Vec3.sdiv_x (a : Vec3) (s : ℝ) : (a / s).x = a.x / s := rfl
@[simp] theorem Vec3.sdiv_y (a : Vec3) (s : ℝ) : (a / s).y = a.y / s := rfl
@[simp] theorem Vec3.sdiv_z (a : Vec3) (s : ℝ) : (a / s).z = a.z / s := rfl
@[simp] theorem Vec3.splat_x (s : ℝ) : (Vec3.splat s).x = s := rfl
@[simp] theorem Vec3.splat_y (s : ℝ) : (Vec3.splat s).y = s := rfl
@[simp] theorem Vec3.splat_z (s : ℝ) : (Vec3.splat s).z = s := rfl

/-- dot from src/library.hpp line 73. -/
noncomputable def dot (value other : Vec3) : ℝ :=
  value.x * other.x + value.y * other.y + value.z * other.z

/-- abs_dot from src/library.hpp line 74. -/
noncomputable def abs_dot (value other : Vec3) : ℝ := |dot value other|

/-- magnitude_squared from src/library.hpp line 75. -/
noncomputable def magnitude_squared (value : Vec3) : ℝ := dot value value

/-- magnitude from src/library.hpp line 76 (std::sqrt embedded as Real.sqrt). -/
noncomputable def magnitude (value : Vec3) : ℝ := Real.sqrt (magnitude_squared value)

/-- reflect from src/library.hpp line 77. -/
noncomputable def reflect (value normal : Vec3) : Vec3 :=
  normal * (2 * dot value normal) - value

/-- The default epsilon 8E-7f of almost_zero, src/library.hpp line 83. -/
noncomputable def zeroEpsilon : ℝ := 8 / 10 ^ 7

/-- almost_zero from src/library.hpp line 83, at its default epsilon
(the only epsilon used by the four source files). -/
abbrev almost_zero (value : ℝ) : Prop :=
  -zeroEpsilon < value ∧ value < zeroEpsilon

/-- safe_sqrt from src/library.hpp line 89. -/
noncomputable def safe_sqrt (value : ℝ) : ℝ :=
  if value ≤ 0 then 0 else Real.sqrt value

/-- normalize from src/library.hpp lines 96-101. -/
noncomputable def normalize (value : Vec3) : Vec3 :=
  if almost_zero (magnitude_squared value) then Vec3.splat 0
  else value * (1 / Real.sqrt (magnitude_squared value))

/-- bounce from src/library.hpp lines 148-153. -/
noncomputable def bounce (ray : Ray) (distance : ℝ) (direction : Vec3) : Ray :=
  let point := ray.origin + ray.direction * distance
  let point := point + direction * (1 / 10 ^ 4 : ℝ)
  ⟨point, direction⟩

/-- make_same_side from src/library.hpp lines 159-166; the C++ in/out
parameter `incident` becomes the return value. -/
noncomputable def make_same_side (outgoing normal incident : Vec3) : Vec3 :=
  if dot outgoing normal * dot incident normal < 0 then reflect (-incident) normal
  else incident

/-- get_luminance from src/library.hpp line 209. -/
noncomputable def get_luminance (color : Color) : ℝ :=
  dot color ⟨0.212671, 0.715160, 0.072169⟩

/-- intersect_sphere from src/library.cpp lines 39-55.  The returned
Infinity on a miss becomes `none`; the output parameter `normal` joins the
returned distance in a pair. -/
noncomputable def intersect_sphere (ray : Ray) (center : Vec3) (radius : ℝ) :
    Option (ℝ × Vec3) :=
  let offset := ray.origin - center
  let radius2 := radius * radius
  let mapped := -dot offset ray.direction
  let extend2 := mapped * mapped + radius2 - magnitude_squared offset
  if extend2 < 0 then none
  else
    let extend := safe_sqrt extend2
    let distance := mapped - extend
    let distance := if distance < 0 then mapped + extend else distance
    if distance < 0 then none
    else some (distance, normalize (ray.direction * distance + offset))

/-- intersect_plane from src/library.cpp lines 57-69. -/
noncomputable def intersect_plane (ray : Ray) (normal : Vec3) (offset : ℝ) :
    Option ℝ :=
  let mapped := dot ray.direction normal
  if ¬ almost_zero mapped then
    let distance := dot ray.origin normal
    let distance := (distance + offset) / (-mapped)
    if 0 ≤ distance then some distance else none
  else none

/-- First half of the prepare lambda of intersect_box (src/library.cpp lines
77-81): swap the two slab lengths so that the first component holds the
larger one (the exit) and the second the smaller one (the entry). -/
noncomputable def prepareSwap (length_min length_max : ℝ) : ℝ × ℝ :=
  if length_min < length_max then (length_max, length_min)
  else (length_min, length_max)

/-- Second half of the prepare lambda of intersect_box: the normal sign for
an axis, computed from the sign of the reciprocal direction component. -/
noncomputable def prepareSign (direction : ℝ) : ℝ :=
  if direction < 0 then 1 else -1

/-- One near-update block of intersect_box (src/library.cpp lines 93-97 and
105-109): take the new entry length and its normal when the entry is larger. -/
noncomputable def updNear (cur : ℝ × Vec3) (v : ℝ) (n : Vec3) : ℝ × Vec3 :=
  if cur.1 < v then (v, n) else cur

/-- One far-update block of intersect_box (src/library.cpp lines 99-103 and
111-115): take the new exit length and its normal when the exit is smaller. -/
noncomputable def updFar (cur : ℝ × Vec3) (v : ℝ) (n : Vec3) : ℝ × Vec3 :=
  if cur.1 > v then (v, n) else cur

/-- The near/far update chains and the final branch of intersect_box
(src/library.cpp lines 88-129), abstracted over the per-axis entry lengths
e1 e2 e3, exit lengths f1 f2 f3 and their candidate normals.  near is the
largest entry, far the smallest exit; miss unless far ≥ near and far ≥ 0;
report near and its normal when near ≥ 0, else far and its normal. -/
noncomputable def boxCore (e1 e2 e3 f1 f2 f3 : ℝ) (n1 n2 n3 m1 m2 m3 : Vec3) :
    Option (ℝ × Vec3) :=
  let near := updNear (updNear (e1, n1) e2 n2) e3 n3
  let far := updFar (updFar (f1, m1) f2 m2) f3 m3
  if near.1 ≤ far.1 ∧ 0 ≤ far.1 then
    if 0 ≤ near.1 then some near else some far
  else none

/-- intersect_box from src/library.cpp lines 71-129 (the live code, not the
commented-out variant).  After the prepare swap, the C++ field lengths_min
holds the per-axis exit length and lengths_max the per-axis entry length.
The real-number embedding is faithful whenever every direction component is
nonzero; the C++ code relies on IEEE infinities when a component is zero. -/
noncomputable def intersect_box (ray : Ray) (bmin bmax : Vec3) :
    Option (ℝ × Vec3) :=
  let direction_r : Vec3 :=
    ⟨1 / ray.direction.x, 1 / ray.direction.y, 1 / ray.direction.z⟩
  let lengths_min := (bmin - ray.origin) * direction_r
  let lengths_max := (bmax - ray.origin) * direction_r
  let px := prepareSwap lengths_min.x lengths_max.x
  let py := prepareSwap lengths_min.y lengths_max.y
  let pz := prepareSwap lengths_min.z lengths_max.z
  let sx := prepareSign direction_r.x
  let sy := prepareSign direction_r.y
  let sz := prepareSign direction_r.z
  boxCore px.2 py.2 pz.2 px.1 py.1 pz.1
    ⟨sx, 0, 0⟩ ⟨0, sy, 0⟩ ⟨0, 0, sz⟩ ⟨-sx, 0, 0⟩ ⟨0, -sy, 0⟩ ⟨0, 0, -sz⟩

/-- The outward normal sign on an axis: -1 for a negative direction
component, +1 otherwise (the sign of the face the ray exits through). -/
noncomputable def outSign (d : ℝ) : ℝ := if d < 0 then -1 else 1

/-- The parametric distance at which a ray enters the slab [lo, hi] of one
axis: the smaller of the two boundary distances. -/
noncomputable def slabEntry (o d lo hi : ℝ) : ℝ :=
  min ((lo - o) / d) ((hi - o) / d)

/-- The parametric distance at which a ray exits the slab [lo, hi] of one
axis: the larger of the two boundary distances. -/
noncomputable def slabExit (o d lo hi : ℝ) : ℝ :=
  max ((lo - o) / d) ((hi - o) / d)

/-- The entry distance of a ray into an axis-aligned box: the largest
per-axis slab entry. -/
noncomputable def boxNear (ray : Ray) (bmin bmax : Vec3) : ℝ :=
  max (max (slabEntry ray.origin.x ray.direction.x bmin.x bmax.x)
      (slabEntry ray.origin.y ray.direction.y bmin.y bmax.y))
    (slabEntry ray.origin.z ray.direction.z bmin.z bmax.z)

/-- The exit distance of a ray out of an axis-aligned box: the smallest
per-axis slab exit. -/
noncomputable def boxFar (ray : Ray) (bmin bmax : Vec3) : ℝ :=
  min (min (slabExit ray.origin.x ray.direction.x bmin.x bmax.x)
      (slabExit ray.origin.y ray.direction.y bmin.y bmax.y))
    (slabExit ray.origin.z ray.direction.z bmin.z bmax.z)

/-- n is the inward-facing normal of an entry face whose slab entry attains
the box entry distance (the normal reported with a near hit). -/
def isNearNormal (ray : Ray) (bmin bmax n : Vec3) : Prop :=
  (n = ⟨-outSign ray.direction.x, 0, 0⟩ ∧
    slabEntry ray.origin.x ray.direction.x bmin.x bmax.x = boxNear ray bmin bmax) ∨
  (n = ⟨0, -outSign ray.direction.y, 0⟩ ∧
    slabEntry ray.origin.y ray.direction.y bmin.y bmax.y = boxNear ray bmin bmax) ∨
  (n = ⟨0, 0, -outSign ray.direction.z⟩ ∧
    slabEntry ray.origin.z ray.direction.z bmin.z bmax.z = boxNear ray bmin bmax)

/-- n is the outward-facing normal of an exit face whose slab exit attains
the box exit distance (the normal reported with a far hit). -/
def isFarNormal (ray : Ray) (bmin bmax n : Vec3) : Prop :=
  (n = ⟨outSign ray.direction.x, 0, 0⟩ ∧
    slabExit ray.origin.x ray.direction.x bmin.x bmax.x = boxFar ray bmin bmax) ∨
  (n = ⟨0, outSign ray.direction.y, 0⟩ ∧
    slabExit ray.origin.y ray.direction.y bmin.y bmax.y = boxFar ray bmin bmax) ∨
  (n = ⟨0, 0, outSign ray.direction.z⟩ ∧
    slabExit ray.origin.z ray.direction.z bmin.z bmax.z = boxFar ray bmin bmax)

/-- Scene from src/library.hpp lines 32-60: spheres (center, radius,
material), planes (normal, offset, material) and boxes (min, max, material),
in insertion order. -/
structure Scene where
  spheres : List (Vec3 × ℝ × ℕ)
  planes : List (Vec3 × ℝ × ℕ)
  boxes : List (Vec3 × Vec3 × ℕ)

/-- One update step of the closest-hit loops of Scene::intersect
(src/library.cpp lines 178-183, 192-197, 208-213): replace the best hit when
the new distance is strictly smaller.  `none` is the initial Infinity. -/
noncomputable def updateBest (best : Option (ℝ × Vec3 × ℕ)) (nd : ℝ) (nn : Vec3)
    (material : ℕ) : Option (ℝ × Vec3 × ℕ) :=
  match best with
  | none => some (nd, nn, material)
  | some b => if nd < b.1 then some (nd, nn, material) else some b

/-- Scene::intersect from src/library.cpp lines 166-217: scan all spheres,
then all planes, then all boxes, keeping the closest finite hit; returns
`none` when the final distance is still Infinity (std::isfinite false). -/
noncomputable def Scene.intersect (scene : Scene) (ray : Ray) :
    Option (ℝ × Vec3 × ℕ) :=
  let best := scene.spheres.foldl (fun best s =>
    match intersect_sphere ray s.1 s.2.1 with
    | none => best
    | some (nd, nn) => updateBest best nd nn s.2.2) none
  let best := scene.planes.foldl (fun best p =>
    match intersect_plane ray p.1 p.2.1 with
    | none => best
    | some nd => updateBest best nd p.1 p.2.2) best
  let best := scene.boxes.foldl (fun best b =>
    match intersect_box ray b.1 b.2.1 with
    | none => best
    | some (nd, nn) => updateBest best nd nn b.2.2) best
  best

/-- The scene of the C1 scenario: sphere(center (0,1,3), radius 1,
material 0) and plane(normal (0,1,0), offset 0, material 0). -/
noncomputable def sceneC1 : Scene :=
  ⟨[(⟨0, 1, 3⟩, 1, 0)], [(⟨0, 1, 0⟩, 0, 0)], []⟩

/-- The camera ray of the C1 scenario: origin (0,1,-3), direction
normalize((0,0,1)). -/
noncomputable def rayC1 : Ray := ⟨⟨0, 1, -3⟩, normalize ⟨0, 0, 1⟩⟩

/-- Pi from src/library.hpp line 14. -/
noncomputable def Pi : ℝ := Real.pi

/-- Modelled from the spec: fresnel_cos_i is declared in src/library.hpp
line 186 but its definition is not among the four source files.  Spec.md
§4.3: the refracted cosine via Snell's law in cosine form, clamped to zero
(total internal reflection) when the implied sine exceeds one. -/
noncomputable def fresnel_cos_i (eta cos_o : ℝ) : ℝ :=
  Real.sqrt (max 0 (1 - eta ^ 2 * (1 - cos_o ^ 2)))

/-- Modelled from the spec: fresnel_value is declared in src/library.hpp
line 194 but its definition is not among the four source files.  Spec.md
§4.3: the dielectric non-polarized Fresnel reflectance, averaging the s and
p polarizations. -/
noncomputable def fresnel_value (eta cos_o cos_i : ℝ) : ℝ :=
  let r_s := (eta * cos_o - cos_i) / (eta * cos_o + cos_i)
  let r_p := (cos_o - eta * cos_i) / (cos_o + eta * cos_i)
  (r_s ^ 2 + r_p ^ 2) / 2

/-- Modelled from the spec: fresnel_refract is declared in src/library.hpp
line 203 but its definition is not among the four source files.  Spec.md
§4.3: the refracted incident direction of the outgoing direction about the
normal. -/
noncomputable def fresnel_refract (eta cos_i : ℝ) (outgoing normal : Vec3) :
    Vec3 :=
  -outgoing * eta + normal * (eta * dot outgoing normal - cos_i)

namespace Reference

/-- The random draws one bounce of the reference.cpp integrator may consume:
the point drawn by random_on_sphere and the float drawn by random_float. -/
structure Draw where
  vec : Vec3
  flt : ℝ

/-- bsdf_lambertian_reflection from src/reference.cpp lines 27-43 (the live
uniform-sampling code; the cosine-weighted construction is commented out
there with the remark that it does not work).  The random_on_sphere draw is
the explicit parameter draw; the incident out-parameter joins the color. -/
noncomputable def bsdf_lambertian_reflection (draw outgoing normal : Vec3) :
    Color × Vec3 :=
  let incident := draw
  let uniform_hemisphere_pdf : ℝ := 1 / Pi / 2
  let incident := make_same_side outgoing normal incident
  let evaluated : ℝ := 1 / Pi
  let pdf := uniform_hemisphere_pdf
  (if almost_zero pdf then Vec3.splat 0 else Vec3.splat (evaluated / pdf),
    incident)

/-- bsdf_specular_reflection from src/reference.cpp lines 45-51. -/
noncomputable def bsdf_specular_reflection (outgoing normal : Vec3) :
    Color × Vec3 :=
  let incident := reflect outgoing normal
  let correction := abs_dot incident normal
  (if almost_zero correction then Vec3.splat 0
   else Vec3.splat (1 / correction), incident)

/-- bsdf_specular_fresnel from src/reference.cpp lines 53-85 (the live
importance-sampling branch); flt is the random_float draw. -/
noncomputable def bsdf_specular_fresnel (flt : ℝ) (outgoing normal : Vec3)
    (eta0 : ℝ) : Color × Vec3 :=
  let cos_o := dot outgoing normal
  let eta := if cos_o < 0 then 1 / eta0 else eta0
  let cos_i := fresnel_cos_i eta cos_o
  let evaluated := fresnel_value eta cos_o cos_i
  let incident := if flt < evaluated then normalize (reflect outgoing normal)
    else fresnel_refract eta cos_i outgoing normal
  let correction := abs_dot incident normal
  (if almost_zero correction then Vec3.splat 0
   else Vec3.splat (1 / correction), incident)

/-- bsdf from src/reference.cpp lines 87-98 with the per-material albedo
multipliers; an unrecognized material absorbs (zero color), leaving the
incident at its default-constructed zero vector. -/
noncomputable def bsdf (d : Draw) (material : ℕ) (outgoing normal : Vec3) :
    Color × Vec3 :=
  match material with
  | 0 =>
    let r := bsdf_lambertian_reflection d.vec outgoing normal
    (r.1 * (0.5 : ℝ), r.2)
  | 1 =>
    let r := bsdf_specular_reflection outgoing normal
    (r.1 * (0.8 : ℝ), r.2)
  | 2 =>
    let r := bsdf_specular_fresnel d.flt outgoing normal (1 / 1.5)
    (r.1 * (0.9 : ℝ), r.2)
  | _ => (Vec3.splat 0, Vec3.splat 0)

/-- emit from src/reference.cpp lines 100-109. -/
noncomputable def emit (material : ℕ) : Color :=
  match material with
  | 3 => Vec3.splat 1
  | _ => Vec3.splat 0

/-- escape from src/reference.cpp lines 111-114. -/
noncomputable def escape (direction : Vec3) : Color := direction * direction

/-- evaluate from src/reference.cpp lines 116-135, instrumented with the
number of bounces taken (the count of recursive calls); the oracle supplies
the random draws of each bounce in order.  depth counts down exactly as the
C++ parameter does, returning the escape color when it reaches zero. -/
noncomputable def evaluateI (scene : Scene) (oracle : ℕ → Draw) :
    ℕ → Ray → Color × ℕ
  | 0, ray => (escape ray.direction, 0)
  | depth + 1, ray =>
    match Scene.intersect scene ray with
    | none => (escape ray.direction, 0)
    | some (distance, normal, material) =>
      let outgoing := -ray.direction
      let sc := bsdf (oracle 0) material outgoing normal
      let emission := emit material
      let new_ray := bounce ray distance sc.2
      let lambertian := abs_dot normal sc.2
      let rest := evaluateI scene (fun k => oracle (k + 1)) depth new_ray
      (emission + sc.1 * rest.1 * lambertian, rest.2 + 1)

/-- evaluate from src/reference.cpp: the color component of evaluateI. -/
noncomputable def evaluate (scene : Scene) (oracle : ℕ → Draw) (depth : ℕ)
    (ray : Ray) : Color :=
  (evaluateI scene oracle depth ray).1

/-- render_pixel from src/reference.cpp lines 145-162, as a function of the
colors the SamplesPerPixel render_sample calls produced.  A sample is `none`
when is_invalid held for it (a non-finite channel sum, not representable in
the exact real embedding); the final division by the count, which in C++
produces the non-finite 0/0 = NaN when the count is zero, is likewise
embedded as `none`. -/
noncomputable def render_pixel (samples : List (Option Color)) : Option Color :=
  let r := samples.foldl (fun (acc : Color × ℕ) sample =>
    match sample with
    | none => acc
    | some c => (acc.1 + c, acc.2 + 1)) (Vec3.splat 0, 0)
  if r.2 = 0 then none else some (r.1 / (r.2 : ℝ))

end Reference

namespace MainVariant

/-- bsdf_lambertian_reflection from src/main.cpp lines 23-28; draw is the
random_on_sphere output. -/
noncomputable def bsdf_lambertian_reflection (draw outgoing normal : Vec3) :
    Color × Vec3 :=
  (Vec3.splat 1, make_same_side outgoing normal draw)

/-- bsdf_specular_reflection from src/main.cpp lines 30-34 (this variant has
no grazing-angle guard). -/
noncomputable def bsdf_specular_reflection (outgoing normal : Vec3) :
    Color × Vec3 :=
  let incident := reflect outgoing normal
  (Vec3.splat (1 / |dot incident normal|), incident)

/-- bsdf from src/main.cpp lines 36-46. -/
noncomputable def bsdf (draw : Vec3) (material : ℕ) (outgoing normal : Vec3) :
    Color × Vec3 :=
  match material with
  | 0 =>
    let r := bsdf_lambertian_reflection draw outgoing normal
    (r.1 * (0.5 : ℝ), r.2)
  | 1 =>
    let r := bsdf_specular_reflection outgoing normal
    (r.1 * (0.8 : ℝ), r.2)
  | _ => (Vec3.splat 0, Vec3.splat 0)

/-- escaped from src/main.cpp lines 48-51. -/
noncomputable def escaped (direction : Vec3) : Color := direction * direction

/-- evaluate from src/main.cpp lines 53-70.  The C++ recursion carries no
depth parameter; the fuel argument only makes the function total in Lean
(its exhaustion value is never relied on by the theorems), and the oracle
supplies each bounce's random draw. -/
noncomputable def evaluate (scene : Scene) (oracle : ℕ → Vec3) :
    ℕ → Ray → Color → Color
  | 0, _, _ => Vec3.splat 0
  | fuel + 1, ray, energy =>
    match Scene.intersect scene ray with
    | none => energy * escaped ray.direction
    | some (distance, normal, material) =>
      let outgoing := -ray.direction
      let sc := bsdf (oracle 0) material outgoing normal
      let new_ray := bounce ray distance sc.2
      let energy2 := energy * sc.1 * |dot normal sc.2|
      if get_luminance energy2 < 0.01 then Vec3.splat 0
      else evaluate scene (fun k => oracle (k + 1)) fuel new_ray energy2

end MainVariant

/-- The incident-direction construction the spec describes for the
Lambertian sampler (spec.md §4.3): normal plus the drawn point, normalized,
then forced onto the outgoing side.  Stated from the spec's words for
comparison; the live code does not compute this. -/
noncomputable def specCosineIncident (draw outgoing normal : Vec3) : Vec3 :=
  make_same_side outgoing normal (normalize (normal + draw))

/-- The samples a pixel keeps: those not discarded by the invalid filter. -/
def validSamples : List (Option Color) → List Color
  | [] => []
  | none :: rest => validSamples rest
  | some c :: rest => c :: validSamples rest

/-- The sum of a list of colors. -/
noncomputable def colorSum : List Color → Color
  | [] => Vec3.splat 0
  | c :: rest => c + colorSum rest

/-- A single-sphere scene whose sphere has the unrecognized material 7. -/
noncomputable def sceneAbsorb : Scene := ⟨[(⟨0, 0, 3⟩, 1, 7)], [], []⟩

/-- Helper: safe_sqrt agrees with Real.sqrt on non-negative arguments. -/
theorem safe_sqrt_eq_sqrt (a : ℝ) (h : 0 ≤ a) : safe_sqrt a = Real.sqrt a := by
  unfold safe_sqrt
  split_ifs with h1
  · have ha : a = 0 := le_antisymm h1 h
    simp [ha]
  · rfl

/-- Helper: normalize on a vector of known nonzero magnitude m scales by 1/m. -/
theorem normalize_eq_smul (v : Vec3) (m : ℝ) (h0 : 0 ≤ m)
    (hm : magnitude_squared v = m ^ 2) (he : zeroEpsilon ≤ m ^ 2) :
    normalize v = v * (1 / m) := by
  have hna : ¬ almost_zero (magnitude_squared v) := by
    rw [hm]; intro hball; exact absurd hball.2 (not_lt.mpr he)
  unfold normalize
  rw [if_neg hna, hm, Real.sqrt_sq h0]

/-- Helper: the direction of the C1 ray normalizes to (0,0,1). -/
theorem rayC1_direction : normalize (⟨0, 0, 1⟩ : Vec3) = (⟨0, 0, 1⟩ : Vec3) := by
  rw [normalize_eq_smul ⟨0, 0, 1⟩ 1 (by norm_num)
    (by norm_num [magnitude_squared, dot]) (by norm_num [zeroEpsilon])]
  ext <;> simp

/-- Helper: evaluation of Scene::intersect on the C1 scenario. -/
theorem sceneC1_eval :
    Scene.intersect sceneC1 rayC1 = some (5, ⟨0, 0, -1⟩, 0) := by
  have hray : rayC1 = ⟨⟨0, 1, -3⟩, ⟨0, 0, 1⟩⟩ := by
    rw [rayC1, rayC1_direction]
  have hnrm : normalize (⟨0, 0, -1⟩ : Vec3) = (⟨0, 0, -1⟩ : Vec3) := by
    rw [normalize_eq_smul ⟨0, 0, -1⟩ 1 (by norm_num)
      (by norm_num [magnitude_squared, dot]) (by norm_num [zeroEpsilon])]
    ext <;> simp
  have hsph : intersect_sphere ⟨⟨0, 1, -3⟩, ⟨0, 0, 1⟩⟩ ⟨0, 1, 3⟩ 1 =
      some (5, ⟨0, 0, -1⟩) := by
    have h1 : ((⟨⟨0, 1, -3⟩, ⟨0, 0, 1⟩⟩ : Ray).origin - ⟨0, 1, 3⟩ : Vec3) =
        ⟨0, 0, -6⟩ := by
      ext <;> norm_num
    rw [intersect_sphere]
    simp only [h1]
    norm_num [dot, magnitude_squared, safe_sqrt, Real.sqrt_one]
    rw [show ((⟨0, 0, 1⟩ : Vec3) * (5 : ℝ) + ⟨0, 0, -6⟩ : Vec3) = ⟨0, 0, -1⟩ by
      ext <;> norm_num]
    exact hnrm
  have hpln : intersect_plane ⟨⟨0, 1, -3⟩, ⟨0, 0, 1⟩⟩ ⟨0, 1, 0⟩ 0 = none := by
    rw [intersect_plane]
    norm_num [dot, almost_zero, zeroEpsilon]
  rw [hray, Scene.intersect]
  simp only [sceneC1, List.foldl, hsph, hpln, updateBest]

/-- C1 as stated is false: in the scenario of the spec the ray hits the
sphere at distance 5, not at distance 2 (the origin (0,1,-3) is 6 units from
the sphere center (0,1,3), and the radius is 1). -/
theorem C1_spec_distance_refuted :
    Scene.intersect sceneC1 rayC1 = some (5, ⟨0, 0, -1⟩, 0) ∧ (5 : ℝ) ≠ 2 :=
  ⟨sceneC1_eval, by norm_num⟩

/-- C1 amended: Scene::intersect on the scenario scene and ray reports a hit
on the sphere at distance 5.0 with normal (0,0,-1) and material 0. -/
theorem C1_concrete_hit_amended :
    Scene.intersect sceneC1 rayC1 = some (5, ⟨0, 0, -1⟩, 0) :=
  sceneC1_eval

/-- C8: normalize returns the zero vector whenever the squared magnitude is
within the zero epsilon of zero (so it never divides by a near-zero
quantity: in the other branch the magnitude is at least √(8E-7) > 0), and on
every other vector it returns the vector scaled by the reciprocal of its
magnitude. -/
theorem C8_normalize_safe (v : Vec3) :
    (almost_zero (magnitude_squared v) → normalize v = Vec3.splat 0) ∧
    (¬ almost_zero (magnitude_squared v) →
      normalize v = v * (1 / magnitude v) ∧
      Real.sqrt zeroEpsilon ≤ magnitude v ∧ 0 < magnitude v) := by
  have h0 : 0 ≤ magnitude_squared v := by
    simp only [magnitude_squared, dot]
    nlinarith [sq_nonneg v.x, sq_nonneg v.y, sq_nonneg v.z]
  have hε : 0 < zeroEpsilon := by norm_num [zeroEpsilon]
  constructor
  · intro h; simp [normalize, h]
  · intro h
    have heps : zeroEpsilon ≤ magnitude_squared v := by
      by_contra hlt
      push_neg at hlt
      exact h ⟨by linarith, hlt⟩
    refine ⟨?_, ?_, ?_⟩
    · simp [normalize, h, magnitude]
    · exact Real.sqrt_le_sqrt heps
    · exact Real.sqrt_pos.mpr (lt_of_lt_of_le hε heps)

/-- Witness for C8 at v = (3,4,0), exercising the scaling branch. -/
theorem C8_normalize_safe_witness :
    normalize ⟨3, 4, 0⟩ = (⟨3, 4, 0⟩ : Vec3) * (1 / magnitude ⟨3, 4, 0⟩) ∧
    Real.sqrt zeroEpsilon ≤ magnitude ⟨3, 4, 0⟩ ∧ 0 < magnitude ⟨3, 4, 0⟩ :=
  (C8_normalize_safe ⟨3, 4, 0⟩).2
    (by norm_num [almost_zero, magnitude_squared, dot, zeroEpsilon])

/-- C6: root selection of intersect_sphere for a unit-length ray direction:
miss when the discriminant is negative; otherwise report the smaller
quadratic root when it is non-negative; fall back to the larger root when
the smaller one is negative (ray origin inside the sphere); miss when both
roots are negative; and a ray aimed exactly through the center from outside
hits at distance |origin − center| − radius. -/
theorem C6_intersect_sphere_roots (o d c : Vec3) (r disc tsmall tlarge : ℝ)
    (hd : magnitude_squared d = 1)
    (hdisc : disc = dot (o - c) d ^ 2 + r ^ 2 - magnitude_squared (o - c))
    (hts : tsmall = -dot (o - c) d - Real.sqrt disc)
    (htl : tlarge = -dot (o - c) d + Real.sqrt disc) :
    (disc < 0 → intersect_sphere ⟨o, d⟩ c r = none) ∧
    (0 ≤ disc → 0 ≤ tsmall →
      Option.map Prod.fst (intersect_sphere ⟨o, d⟩ c r) = some tsmall) ∧
    (0 ≤ disc → tsmall < 0 → 0 ≤ tlarge →
      Option.map Prod.fst (intersect_sphere ⟨o, d⟩ c r) = some tlarge) ∧
    (0 ≤ disc → tlarge < 0 → intersect_sphere ⟨o, d⟩ c r = none) ∧
    (0 < r → r < magnitude (o - c) →
      d = (c - o) * (1 / magnitude (o - c)) →
      Option.map Prod.fst (intersect_sphere ⟨o, d⟩ c r) =
        some (magnitude (o - c) - r)) := by
  have hE : -dot (o - c) d * -dot (o - c) d + r * r - magnitude_squared (o - c)
      = disc := by
    rw [hdisc]; ring
  have hsq : 0 ≤ Real.sqrt disc := Real.sqrt_nonneg disc
  have key1 : disc < 0 → intersect_sphere ⟨o, d⟩ c r = none := by
    intro h1
    simp only [intersect_sphere]
    rw [hE, if_pos h1]
  have key2 : 0 ≤ disc → 0 ≤ tsmall →
      Option.map Prod.fst (intersect_sphere ⟨o, d⟩ c r) = some tsmall := by
    intro h0 hts0
    have hc0 : ¬ (disc < 0) := not_lt.mpr h0
    have hc1 : ¬ (-dot (o - c) d - Real.sqrt disc < 0) := by
      rw [← hts]; exact not_lt.mpr hts0
    simp only [intersect_sphere]
    rw [hE, if_neg hc0, safe_sqrt_eq_sqrt disc h0, if_neg hc1, if_neg hc1]
    simp [hts]
  have key3 : 0 ≤ disc → tsmall < 0 → 0 ≤ tlarge →
      Option.map Prod.fst (intersect_sphere ⟨o, d⟩ c r) = some tlarge := by
    intro h0 hts0 htl0
    have hc0 : ¬ (disc < 0) := not_lt.mpr h0
    have hc1 : -dot (o - c) d - Real.sqrt disc < 0 := by rw [← hts]; exact hts0
    have hc2 : ¬ (-dot (o - c) d + Real.sqrt disc < 0) := by
      rw [← htl]; exact not_lt.mpr htl0
    simp only [intersect_sphere]
    rw [hE, if_neg hc0, safe_sqrt_eq_sqrt disc h0, if_pos hc1, if_neg hc2]
    simp [htl]
  have key4 : 0 ≤ disc → tlarge < 0 → intersect_sphere ⟨o, d⟩ c r = none := by
    intro h0 htl0
    have hc0 : ¬ (disc < 0) := not_lt.mpr h0
    have hts0 : tsmall < 0 := by
      have : tsmall ≤ tlarge := by rw [hts, htl]; linarith
      linarith
    have hc1 : -dot (o - c) d - Real.sqrt disc < 0 := by rw [← hts]; exact hts0
    have hc2 : -dot (o - c) d + Real.sqrt disc < 0 := by rw [← htl]; exact htl0
    simp only [intersect_sphere]
    rw [hE, if_neg hc0, safe_sqrt_eq_sqrt disc h0, if_pos hc1, if_pos hc2]
  refine ⟨key1, key2, key3, key4, ?_⟩
  intro hr hL hdir
  have h0m : 0 ≤ magnitude_squared (o - c) := by
    simp only [magnitude_squared, dot]
    nlinarith [sq_nonneg (o - c).x, sq_nonneg (o - c).y, sq_nonneg (o - c).z]
  have hLpos : 0 < magnitude (o - c) := lt_trans hr hL
  have hL2 : magnitude (o - c) ^ 2 = magnitude_squared (o - c) :=
    Real.sq_sqrt h0m
  have hq : dot (o - c) d = -(magnitude (o - c)) := by
    rw [hdir]
    have hstep : dot (o - c) ((c - o) * (1 / magnitude (o - c))) =
        -(magnitude_squared (o - c)) * (1 / magnitude (o - c)) := by
      simp only [dot, magnitude_squared, Vec3.smul_x, Vec3.smul_y, Vec3.smul_z,
        Vec3.sub_x, Vec3.sub_y, Vec3.sub_z]
      ring
    rw [hstep, ← hL2]
    field_simp
    ring
  have hdiscr : disc = r ^ 2 := by
    rw [hdisc, hq, ← hL2]; ring
  have hsqrtd : Real.sqrt disc = r := by
    rw [hdiscr, Real.sqrt_sq hr.le]
  have hts2 : tsmall = magnitude (o - c) - r := by
    rw [hts, hq, hsqrtd]; ring
  have hfin := key2 (by rw [hdiscr]; positivity) (by rw [hts2]; linarith)
  rw [hfin, hts2]

/-- Witness for C6: a unit ray from (0,0,0) through the center (0,0,3) of a
radius-1 sphere hits at distance |origin − center| − radius = 2. -/
theorem C6_intersect_sphere_roots_witness :
    Option.map Prod.fst (intersect_sphere ⟨⟨0, 0, 0⟩, ⟨0, 0, 1⟩⟩ ⟨0, 0, 3⟩ 1) =
      some 2 := by
  have hmag : magnitude ((⟨0, 0, 0⟩ : Vec3) - ⟨0, 0, 3⟩) = 3 := by
    rw [magnitude, show magnitude_squared ((⟨0, 0, 0⟩ : Vec3) - ⟨0, 0, 3⟩) =
      3 ^ 2 by norm_num [magnitude_squared, dot], Real.sqrt_sq (by norm_num)]
  have h := (C6_intersect_sphere_roots ⟨0, 0, 0⟩ ⟨0, 0, 1⟩ ⟨0, 0, 3⟩ 1 1 2 4
    (by norm_num [magnitude_squared, dot])
    (by norm_num [dot, magnitude_squared])
    (by norm_num [dot, Real.sqrt_one])
    (by norm_num [dot, Real.sqrt_one])).2.2.2.2
    (by norm_num) (by rw [hmag]; norm_num)
    (by rw [hmag]; ext <;> norm_num)
  rw [h, hmag]
  norm_num

/-- Helper: the first prepare output is the larger length. -/
theorem prepareSwap_fst (a b : ℝ) : (prepareSwap a b).1 = max a b := by
  unfold prepareSwap
  split_ifs with h
  · exact (max_eq_right h.le).symm
  · exact (max_eq_left (not_lt.mp h)).symm

/-- Helper: the second prepare output is the smaller length. -/
theorem prepareSwap_snd (a b : ℝ) : (prepareSwap a b).2 = min a b := by
  unfold prepareSwap
  split_ifs with h
  · exact (min_eq_left h.le).symm
  · exact (min_eq_right (not_lt.mp h)).symm

/-- Helper: on a nonzero direction component the prepare sign is the negated
outward sign (the inward sign of the entry face). -/
theorem prepareSign_recip (d : ℝ) (hd : d ≠ 0) :
    prepareSign (1 / d) = -outSign d := by
  unfold prepareSign outSign
  rcases lt_or_gt_of_ne hd with h | h
  · rw [if_pos (one_div_neg.mpr h), if_pos h]; norm_num
  · rw [if_neg (not_lt.mpr (one_div_nonneg.mpr h.le)), if_neg (not_lt.mpr h.le)]

/-- Helper: the outward sign times the direction component is positive. -/
theorem outSign_mul_pos (d : ℝ) (hd : d ≠ 0) : 0 < outSign d * d := by
  unfold outSign
  split_ifs with h
  · nlinarith
  · have hpos : 0 < d := lt_of_le_of_ne (not_lt.mp h) (Ne.symm hd)
    nlinarith

/-- Helper: a near update keeps the larger entry length. -/
theorem updNear_fst (c : ℝ × Vec3) (v : ℝ) (n : Vec3) :
    (updNear c v n).1 = max c.1 v := by
  unfold updNear
  split_ifs with h
  · exact (max_eq_right h.le).symm
  · exact (max_eq_left (not_lt.mp h)).symm

/-- Helper: a far update keeps the smaller exit length. -/
theorem updFar_fst (c : ℝ × Vec3) (v : ℝ) (n : Vec3) :
    (updFar c v n).1 = min c.1 v := by
  unfold updFar
  split_ifs with h
  · exact (min_eq_right h.le).symm
  · exact (min_eq_left (not_lt.mp h)).symm

/-- Helper: the normal tracked by the near chain attains the final value. -/
theorem updNear_chain (e1 e2 e3 : ℝ) (n1 n2 n3 : Vec3) :
    ((updNear (updNear (e1, n1) e2 n2) e3 n3).2 = n1 ∧
      (updNear (updNear (e1, n1) e2 n2) e3 n3).1 = e1) ∨
    ((updNear (updNear (e1, n1) e2 n2) e3 n3).2 = n2 ∧
      (updNear (updNear (e1, n1) e2 n2) e3 n3).1 = e2) ∨
    ((updNear (updNear (e1, n1) e2 n2) e3 n3).2 = n3 ∧
      (updNear (updNear (e1, n1) e2 n2) e3 n3).1 = e3) := by
  unfold updNear
  split_ifs <;> simp

/-- Helper: the normal tracked by the far chain attains the final value. -/
theorem updFar_chain (f1 f2 f3 : ℝ) (m1 m2 m3 : Vec3) :
    ((updFar (updFar (f1, m1) f2 m2) f3 m3).2 = m1 ∧
      (updFar (updFar (f1, m1) f2 m2) f3 m3).1 = f1) ∨
    ((updFar (updFar (f1, m1) f2 m2) f3 m3).2 = m2 ∧
      (updFar (updFar (f1, m1) f2 m2) f3 m3).1 = f2) ∨
    ((updFar (updFar (f1, m1) f2 m2) f3 m3).2 = m3 ∧
      (updFar (updFar (f1, m1) f2 m2) f3 m3).1 = f3) := by
  unfold updFar
  split_ifs <;> simp

/-- Helper: full case analysis of the boxCore branch structure. -/
theorem boxCore_spec (e1 e2 e3 f1 f2 f3 : ℝ) (n1 n2 n3 m1 m2 m3 : Vec3) :
    (boxCore e1 e2 e3 f1 f2 f3 n1 n2 n3 m1 m2 m3 = none ↔
      min (min f1 f2) f3 < max (max e1 e2) e3 ∨ min (min f1 f2) f3 < 0) ∧
    (max (max e1 e2) e3 ≤ min (min f1 f2) f3 → 0 ≤ min (min f1 f2) f3 →
      0 ≤ max (max e1 e2) e3 →
      Option.map Prod.fst (boxCore e1 e2 e3 f1 f2 f3 n1 n2 n3 m1 m2 m3) =
        some (max (max e1 e2) e3)) ∧
    (max (max e1 e2) e3 ≤ min (min f1 f2) f3 → 0 ≤ min (min f1 f2) f3 →
      max (max e1 e2) e3 < 0 →
      Option.map Prod.fst (boxCore e1 e2 e3 f1 f2 f3 n1 n2 n3 m1 m2 m3) =
        some (min (min f1 f2) f3)) ∧
    (∀ t n, boxCore e1 e2 e3 f1 f2 f3 n1 n2 n3 m1 m2 m3 = some (t, n) →
      (0 ≤ max (max e1 e2) e3 →
        ((n = n1 ∧ e1 = max (max e1 e2) e3) ∨ (n = n2 ∧ e2 = max (max e1 e2) e3) ∨
          (n = n3 ∧ e3 = max (max e1 e2) e3)) ∧ t = max (max e1 e2) e3) ∧
      (max (max e1 e2) e3 < 0 →
        ((n = m1 ∧ f1 = min (min f1 f2) f3) ∨ (n = m2 ∧ f2 = min (min f1 f2) f3) ∨
          (n = m3 ∧ f3 = min (min f1 f2) f3)) ∧ t = min (min f1 f2) f3)) := by
  have hN1 : (updNear (updNear (e1, n1) e2 n2) e3 n3).1 = max (max e1 e2) e3 := by
    simp [updNear_fst]
  have hF1 : (updFar (updFar (f1, m1) f2 m2) f3 m3).1 = min (min f1 f2) f3 := by
    simp [updFar_fst]
  refine ⟨?_, ?_, ?_, ?_⟩
  · simp only [boxCore]
    rw [hN1, hF1]
    split_ifs with hc hc2
    · exact iff_of_false (by simp) (by rintro (h | h) <;> linarith [hc.1, hc.2])
    · exact iff_of_false (by simp) (by rintro (h | h) <;> linarith [hc.1, hc.2])
    · refine iff_of_true rfl ?_
      rcases not_and_or.mp hc with h | h
      · exact Or.inl (not_le.mp h)
      · exact Or.inr (not_le.mp h)
  · intro hle hf0 hn0
    simp only [boxCore]
    rw [hN1, hF1, if_pos ⟨hle, hf0⟩, if_pos hn0]
    simp [hN1]
  · intro hle hf0 hneg
    simp only [boxCore]
    rw [hN1, hF1, if_pos ⟨hle, hf0⟩, if_neg (not_le.mpr hneg)]
    simp [hF1]
  · intro t n h
    simp only [boxCore] at h
    rw [hN1, hF1] at h
    split_ifs at h with hc hc2
    · have h2 := Option.some.inj h
      have ht : t = max (max e1 e2) e3 := by
        rw [← hN1, h2]
      have hn : (updNear (updNear (e1, n1) e2 n2) e3 n3).2 = n := by
        rw [h2]
      constructor
      · intro _
        refine ⟨?_, ht⟩
        rcases updNear_chain e1 e2 e3 n1 n2 n3 with ⟨ha, hb⟩ | ⟨ha, hb⟩ | ⟨ha, hb⟩
        · exact Or.inl ⟨hn.symm.trans ha, hb.symm.trans hN1⟩
        · exact Or.inr (Or.inl ⟨hn.symm.trans ha, hb.symm.trans hN1⟩)
        · exact Or.inr (Or.inr ⟨hn.symm.trans ha, hb.symm.trans hN1⟩)
      · intro habs
        exact absurd habs (not_lt.mpr hc2)
    · have h2 := Option.some.inj h
      have ht : t = min (min f1 f2) f3 := by
        rw [← hF1, h2]
      have hn : (updFar (updFar (f1, m1) f2 m2) f3 m3).2 = n := by
        rw [h2]
      constructor
      · intro h0
        exact absurd h0 hc2
      · intro _
        refine ⟨?_, ht⟩
        rcases updFar_chain f1 f2 f3 m1 m2 m3 with ⟨ha, hb⟩ | ⟨ha, hb⟩ | ⟨ha, hb⟩
        · exact Or.inl ⟨hn.symm.trans ha, hb.symm.trans hF1⟩
        · exact Or.inr (Or.inl ⟨hn.symm.trans ha, hb.symm.trans hF1⟩)
        · exact Or.inr (Or.inr ⟨hn.symm.trans ha, hb.symm.trans hF1⟩)

/-- Helper: a strictly interior origin gives a negative slab entry and a
positive slab exit on every axis with a nonzero direction component. -/
theorem slab_inside (o d lo hi : ℝ) (hd : d ≠ 0) (hlo : lo < o) (hhi : o < hi) :
    slabEntry o d lo hi < 0 ∧ 0 < slabExit o d lo hi := by
  unfold slabEntry slabExit
  rcases lt_or_gt_of_ne hd with hneg | hpos
  · constructor
    · exact min_lt_iff.mpr (Or.inr (div_neg_of_pos_of_neg (by linarith) hneg))
    · exact lt_max_iff.mpr (Or.inl (div_pos_of_neg_of_neg (by linarith) hneg))
  · constructor
    · exact min_lt_iff.mpr (Or.inl (div_neg_of_neg_of_pos (by linarith) hpos))
    · exact lt_max_iff.mpr (Or.inr (div_pos (by linarith) hpos))

/-- Helper: dot product with an x-axis vector. -/
theorem dot_xvec (s : ℝ) (v : Vec3) : dot ⟨s, 0, 0⟩ v = s * v.x := by
  simp [dot]

/-- Helper: dot product with a y-axis vector. -/
theorem dot_yvec (s : ℝ) (v : Vec3) : dot ⟨0, s, 0⟩ v = s * v.y := by
  simp [dot]

/-- Helper: dot product with a z-axis vector. -/
theorem dot_zvec (s : ℝ) (v : Vec3) : dot ⟨0, 0, s⟩ v = s * v.z := by
  simp [dot]

/-- C7: case analysis of intersect_box (for directions with nonzero
components, where the real-number embedding of the reciprocal slab test is
faithful): it misses exactly when far < near or far < 0; reports near when
near ≥ 0 and far otherwise; the reported normal is the signed axis normal of
a face attaining the reported bound, facing against the ray on an entry hit
and along the ray on an exit hit; and for a ray origin strictly inside the
box it reports the far exit distance with the outward exit-face normal,
never the near entry distance (which is negative there). -/
theorem C7_intersect_box_cases (ray : Ray) (bmin bmax : Vec3)
    (hx : ray.direction.x ≠ 0) (hy : ray.direction.y ≠ 0)
    (hz : ray.direction.z ≠ 0) :
    (intersect_box ray bmin bmax = none ↔
      boxFar ray bmin bmax < boxNear ray bmin bmax ∨ boxFar ray bmin bmax < 0) ∧
    (boxNear ray bmin bmax ≤ boxFar ray bmin bmax → 0 ≤ boxFar ray bmin bmax →
      0 ≤ boxNear ray bmin bmax →
      Option.map Prod.fst (intersect_box ray bmin bmax) =
        some (boxNear ray bmin bmax)) ∧
    (boxNear ray bmin bmax ≤ boxFar ray bmin bmax → 0 ≤ boxFar ray bmin bmax →
      boxNear ray bmin bmax < 0 →
      Option.map Prod.fst (intersect_box ray bmin bmax) =
        some (boxFar ray bmin bmax)) ∧
    (∀ t n, intersect_box ray bmin bmax = some (t, n) →
      (0 ≤ boxNear ray bmin bmax →
        isNearNormal ray bmin bmax n ∧ dot n ray.direction < 0) ∧
      (boxNear ray bmin bmax < 0 →
        isFarNormal ray bmin bmax n ∧ 0 < dot n ray.direction)) ∧
    (bmin.x < ray.origin.x → ray.origin.x < bmax.x →
     bmin.y < ray.origin.y → ray.origin.y < bmax.y →
     bmin.z < ray.origin.z → ray.origin.z < bmax.z →
      boxNear ray bmin bmax < 0 ∧ 0 < boxFar ray bmin bmax ∧
      Option.map Prod.fst (intersect_box ray bmin bmax) =
        some (boxFar ray bmin bmax)) := by
  have hsx := prepareSign_recip ray.direction.x hx
  have hsy := prepareSign_recip ray.direction.y hy
  have hsz := prepareSign_recip ray.direction.z hz
  have hIB : intersect_box ray bmin bmax =
      boxCore (slabEntry ray.origin.x ray.direction.x bmin.x bmax.x)
        (slabEntry ray.origin.y ray.direction.y bmin.y bmax.y)
        (slabEntry ray.origin.z ray.direction.z bmin.z bmax.z)
        (slabExit ray.origin.x ray.direction.x bmin.x bmax.x)
        (slabExit ray.origin.y ray.direction.y bmin.y bmax.y)
        (slabExit ray.origin.z ray.direction.z bmin.z bmax.z)
        ⟨-outSign ray.direction.x, 0, 0⟩ ⟨0, -outSign ray.direction.y, 0⟩
        ⟨0, 0, -outSign ray.direction.z⟩ ⟨outSign ray.direction.x, 0, 0⟩
        ⟨0, outSign ray.direction.y, 0⟩ ⟨0, 0, outSign ray.direction.z⟩ := by
    simp only [intersect_box, Vec3.mul_x, Vec3.mul_y, Vec3.mul_z, Vec3.sub_x,
      Vec3.sub_y, Vec3.sub_z, mul_one_div, hsx, hsy, hsz, neg_neg,
      prepareSwap_fst, prepareSwap_snd, slabEntry, slabExit]
  have hspec := boxCore_spec
    (slabEntry ray.origin.x ray.direction.x bmin.x bmax.x)
    (slabEntry ray.origin.y ray.direction.y bmin.y bmax.y)
    (slabEntry ray.origin.z ray.direction.z bmin.z bmax.z)
    (slabExit ray.origin.x ray.direction.x bmin.x bmax.x)
    (slabExit ray.origin.y ray.direction.y bmin.y bmax.y)
    (slabExit ray.origin.z ray.direction.z bmin.z bmax.z)
    ⟨-outSign ray.direction.x, 0, 0⟩ ⟨0, -outSign ray.direction.y, 0⟩
    ⟨0, 0, -outSign ray.direction.z⟩ ⟨outSign ray.direction.x, 0, 0⟩
    ⟨0, outSign ray.direction.y, 0⟩ ⟨0, 0, outSign ray.direction.z⟩
  have hBN : boxNear ray bmin bmax =
      max (max (slabEntry ray.origin.x ray.direction.x bmin.x bmax.x)
        (slabEntry ray.origin.y ray.direction.y bmin.y bmax.y))
      (slabEntry ray.origin.z ray.direction.z bmin.z bmax.z) := rfl
  have hBF : boxFar ray bmin bmax =
      min (min (slabExit ray.origin.x ray.direction.x bmin.x bmax.x)
        (slabExit ray.origin.y ray.direction.y bmin.y bmax.y))
      (slabExit ray.origin.z ray.direction.z bmin.z bmax.z) := rfl
  refine ⟨?_, ?_, ?_, ?_, ?_⟩
  · rw [hIB, hBN, hBF]
    exact hspec.1
  · rw [hIB, hBN, hBF]
    exact hspec.2.1
  · rw [hIB, hBN, hBF]
    exact hspec.2.2.1
  · intro t n h
    rw [hIB] at h
    have h4 := hspec.2.2.2 t n h
    constructor
    · intro h0
      rcases h4 with ⟨h4a, _⟩
      rcases h4a (by rw [hBN] at h0; exact h0) with ⟨hdisj, _⟩
      constructor
      · unfold isNearNormal
        rcases hdisj with ⟨ha, hb⟩ | ⟨ha, hb⟩ | ⟨ha, hb⟩
        · exact Or.inl ⟨ha, hb.trans hBN.symm⟩
        · exact Or.inr (Or.inl ⟨ha, hb.trans hBN.symm⟩)
        · exact Or.inr (Or.inr ⟨ha, hb.trans hBN.symm⟩)
      · rcases hdisj with ⟨ha, _⟩ | ⟨ha, _⟩ | ⟨ha, _⟩
        · rw [ha, dot_xvec, neg_mul, neg_lt_zero]
          exact outSign_mul_pos ray.direction.x hx
        · rw [ha, dot_yvec, neg_mul, neg_lt_zero]
          exact outSign_mul_pos ray.direction.y hy
        · rw [ha, dot_zvec, neg_mul, neg_lt_zero]
          exact outSign_mul_pos ray.direction.z hz
    · intro h0
      rcases h4 with ⟨_, h4b⟩
      rcases h4b (by rw [hBN] at h0; exact h0) with ⟨hdisj, _⟩
      constructor
      · unfold isFarNormal
        rcases hdisj with ⟨ha, hb⟩ | ⟨ha, hb⟩ | ⟨ha, hb⟩
        · exact Or.inl ⟨ha, hb.trans hBF.symm⟩
        · exact Or.inr (Or.inl ⟨ha, hb.trans hBF.symm⟩)
        · exact Or.inr (Or.inr ⟨ha, hb.trans hBF.symm⟩)
      · rcases hdisj with ⟨ha, _⟩ | ⟨ha, _⟩ | ⟨ha, _⟩
        · rw [ha, dot_xvec]
          exact outSign_mul_pos ray.direction.x hx
        · rw [ha, dot_yvec]
          exact outSign_mul_pos ray.direction.y hy
        · rw [ha, dot_zvec]
          exact outSign_mul_pos ray.direction.z hz
  · intro h1 h2 h3 h4 h5 h6
    have hax := slab_inside ray.origin.x ray.direction.x bmin.x bmax.x hx h1 h2
    have hay := slab_inside ray.origin.y ray.direction.y bmin.y bmax.y hy h3 h4
    have haz := slab_inside ray.origin.z ray.direction.z bmin.z bmax.z hz h5 h6
    have hnear : boxNear ray bmin bmax < 0 := by
      rw [hBN]
      exact max_lt (max_lt hax.1 hay.1) haz.1
    have hfar : 0 < boxFar ray bmin bmax := by
      rw [hBF]
      exact lt_min (lt_min hax.2 hay.2) haz.2
    refine ⟨hnear, hfar, ?_⟩
    rw [hIB, hBF]
    have hle : max (max (slabEntry ray.origin.x ray.direction.x bmin.x bmax.x)
        (slabEntry ray.origin.y ray.direction.y bmin.y bmax.y))
        (slabEntry ray.origin.z ray.direction.z bmin.z bmax.z) ≤
        min (min (slabExit ray.origin.x ray.direction.x bmin.x bmax.x)
        (slabExit ray.origin.y ray.direction.y bmin.y bmax.y))
        (slabExit ray.origin.z ray.direction.z bmin.z bmax.z) := by
      rw [← hBN, ← hBF]
      linarith
    exact hspec.2.2.1 hle (by rw [← hBF]; linarith) (by rw [← hBN]; exact hnear)

/-- Witness for C7: the ray from the origin along (1,1,1) inside the unit
cube [-1,1]^3 exits at distance 1. -/
theorem C7_intersect_box_cases_witness :
    Option.map Prod.fst
      (intersect_box ⟨⟨0, 0, 0⟩, ⟨1, 1, 1⟩⟩ ⟨-1, -1, -1⟩ ⟨1, 1, 1⟩) =
      some 1 := by
  have h := (C7_intersect_box_cases ⟨⟨0, 0, 0⟩, ⟨1, 1, 1⟩⟩ ⟨-1, -1, -1⟩ ⟨1, 1, 1⟩
    (by norm_num) (by norm_num) (by norm_num)).2.2.2.2
    (by norm_num) (by norm_num) (by norm_num)
    (by norm_num) (by norm_num) (by norm_num)
  rw [h.2.2]
  norm_num [boxFar, slabExit]

/-- Helper: zero is a left identity for Vec3 addition. -/
@[simp]
theorem splat_zero_add (a : Vec3) : Vec3.splat 0 + a = a := by
  ext <;> simp

/-- Helper: zero is a right identity for Vec3 addition. -/
@[simp]
theorem add_splat_zero (a : Vec3) : a + Vec3.splat 0 = a := by
  ext <;> simp

/-- Helper: Vec3 addition is associative. -/
theorem vec3_add_assoc (a b c : Vec3) : a + b + c = a + (b + c) := by
  ext <;> simp only [Vec3.add_x, Vec3.add_y, Vec3.add_z] <;> ring

/-- Helper: normalize fixes the unit vector (0,0,-1). -/
theorem normalize_neg_z : normalize (⟨0, 0, -1⟩ : Vec3) = (⟨0, 0, -1⟩ : Vec3) := by
  rw [normalize_eq_smul ⟨0, 0, -1⟩ 1 (by norm_num)
    (by norm_num [magnitude_squared, dot]) (by norm_num [zeroEpsilon])]
  ext <;> simp

/-- Helper: the accumulator loop of render_pixel computes the sum and the
count of the valid samples. -/
theorem render_pixel_foldl (samples : List (Option Color)) (a : Color) (k : ℕ) :
    samples.foldl (fun (acc : Color × ℕ) sample =>
      match sample with
      | none => acc
      | some c => (acc.1 + c, acc.2 + 1)) (a, k) =
      (a + colorSum (validSamples samples),
        k + (validSamples samples).length) := by
  induction samples generalizing a k with
  | nil => simp [validSamples, colorSum]
  | cons s rest ih =>
    cases s with
    | none =>
      simp only [List.foldl_cons]
      rw [ih]
      simp [validSamples]
    | some c =>
      simp only [List.foldl_cons]
      rw [ih]
      simp only [validSamples, colorSum, List.length_cons, Prod.mk.injEq]
      constructor
      · exact vec3_add_assoc a c (colorSum (validSamples rest))
      · omega

/-- C2 as stated is false: with every sample of the pixel invalid the code
divides the zero sum by the zero count, and 0/0 is the non-finite NaN
(embedded as `none`), not the zero color. -/
theorem C2_all_invalid_not_zero :
    Reference.render_pixel [none] = none ∧
    Reference.render_pixel [none] ≠ some (Vec3.splat 0) := by
  have h : Reference.render_pixel [none] = none := by
    simp [Reference.render_pixel]
  exact ⟨h, by rw [h]; simp⟩

/-- C2 amended: render_pixel discards each invalid sample from both the sum
and the count and returns the sum of the valid samples divided by their
count; when every sample was invalid the division is 0/0 and the result is
an invalid (non-finite) color, not the zero color. -/
theorem C2_render_pixel_filters_amended (samples : List (Option Color)) :
    Reference.render_pixel samples =
      (if (validSamples samples).length = 0 then none
       else some (colorSum (validSamples samples) /
         ((validSamples samples).length : ℝ))) := by
  simp only [Reference.render_pixel]
  rw [render_pixel_foldl samples (Vec3.splat 0) 0]
  simp only [splat_zero_add, Nat.zero_add]

/-- C3 as stated is false: the live sampler keeps the drawn point itself as
the incident direction (flipped to the outgoing side), it does not compute
normalize(normal + draw); at draw (1,0,0) with outgoing = normal = (0,1,0)
the code gives (1,0,0) while the spec's construction gives (1/√2, 1/√2, 0). -/
theorem C3_cosine_construction_refuted :
    (Reference.bsdf_lambertian_reflection ⟨1, 0, 0⟩ ⟨0, 1, 0⟩ ⟨0, 1, 0⟩).2 ≠
      specCosineIncident ⟨1, 0, 0⟩ ⟨0, 1, 0⟩ ⟨0, 1, 0⟩ := by
  have hs2 : (0 : ℝ) < Real.sqrt 2 := Real.sqrt_pos.mpr (by norm_num)
  have hL : (Reference.bsdf_lambertian_reflection ⟨1, 0, 0⟩ ⟨0, 1, 0⟩
      ⟨0, 1, 0⟩).2 = (⟨1, 0, 0⟩ : Vec3) := by
    simp only [Reference.bsdf_lambertian_reflection]
    rw [make_same_side, if_neg (by norm_num [dot])]
  have hnorm : normalize (⟨1, 1, 0⟩ : Vec3) =
      (⟨1, 1, 0⟩ : Vec3) * (1 / Real.sqrt 2) := by
    apply normalize_eq_smul
    · exact Real.sqrt_nonneg 2
    · rw [Real.sq_sqrt (by norm_num : (0 : ℝ) ≤ 2)]
      norm_num [magnitude_squared, dot]
    · rw [Real.sq_sqrt (by norm_num : (0 : ℝ) ≤ 2)]
      norm_num [zeroEpsilon]
  have hR : specCosineIncident ⟨1, 0, 0⟩ ⟨0, 1, 0⟩ ⟨0, 1, 0⟩ =
      (⟨1, 1, 0⟩ : Vec3) * (1 / Real.sqrt 2) := by
    rw [specCosineIncident,
      show (⟨0, 1, 0⟩ : Vec3) + ⟨1, 0, 0⟩ = (⟨1, 1, 0⟩ : Vec3) by ext <;> norm_num,
      hnorm, make_same_side, if_neg]
    rw [not_lt]
    simp only [dot, Vec3.smul_x, Vec3.smul_y, Vec3.smul_z]
    positivity
  intro h
  rw [hL, hR] at h
  have hy := congrArg Vec3.y h
  simp only [Vec3.smul_y] at hy
  rw [one_mul] at hy
  exact absurd hy.symm (ne_of_gt (by positivity))

/-- C3 amended: the Lambertian sampler draws the incident direction
uniformly on the unit sphere (random_on_sphere), flips it onto the outgoing
side with make_same_side, and returns the constant weight 2 — the evaluated
BSDF 1/π divided by the uniform-hemisphere pdf 1/(2π) (the dispatch then
scales it by the material's reflectance). -/
theorem C3_lambertian_uniform_amended (draw outgoing normal : Vec3) :
    Reference.bsdf_lambertian_reflection draw outgoing normal =
      (Vec3.splat 2, make_same_side outgoing normal draw) := by
  have hpi : 0 < Pi := Real.pi_pos
  have hpi4 : Pi ≤ 4 := Real.pi_le_four
  have hpdf : ¬ almost_zero (1 / Pi / 2) := by
    intro h
    have hx : (1 : ℝ) / 8 ≤ 1 / Pi / 2 := by
      rw [div_div]
      exact one_div_le_one_div_of_le (by linarith) (by linarith)
    have h2 : 1 / Pi / 2 < 8 / 10 ^ 7 := h.2
    linarith
  have hne : Pi ≠ 0 := ne_of_gt hpi
  have hval : 1 / Pi / (1 / Pi / 2) = (2 : ℝ) := by
    field_simp
  simp only [Reference.bsdf_lambertian_reflection]
  rw [if_neg hpdf, hval]

/-- C4: the reference path integrator returns within the configured maximum
depth: for every scene, random stream, depth bound and input ray, the number
of bounces it takes (the instrumented count of recursive evaluations) never
exceeds the depth bound, whatever the drawn values are. -/
theorem C4_evaluate_depth_bound (scene : Scene) (oracle : ℕ → Reference.Draw)
    (depth : ℕ) (ray : Ray) :
    (Reference.evaluateI scene oracle depth ray).2 ≤ depth := by
  induction depth generalizing oracle ray with
  | zero => simp [Reference.evaluateI]
  | succ d ih =>
    cases h : Scene.intersect scene ray with
    | none => simp [Reference.evaluateI, h]
    | some val =>
      obtain ⟨dist, nrm, mat⟩ := val
      simp only [Reference.evaluateI, h]
      exact Nat.succ_le_succ (ih _ _)

/-- C5: in the main.cpp integrator, after the throughput is updated by the
scatter weight and |dot(normal, incident)|, a luminance (the dot product
with the fixed RGB coefficients of get_luminance) below the fixed threshold
0.01 terminates the path at once, returning the zero color — which is all
the accumulated emission this integrator carries, since it has no emission
term. -/
theorem C5_luminance_early_out (scene : Scene) (oracle : ℕ → Vec3) (fuel : ℕ)
    (ray : Ray) (energy : Color) (dist : ℝ) (normal : Vec3) (material : ℕ)
    (hhit : Scene.intersect scene ray = some (dist, normal, material))
    (hlum : get_luminance (energy *
        (MainVariant.bsdf (oracle 0) material (-ray.direction) normal).1 *
        |dot normal
          (MainVariant.bsdf (oracle 0) material (-ray.direction) normal).2|) <
      0.01) :
    MainVariant.evaluate scene oracle (fuel + 1) ray energy = Vec3.splat 0 := by
  simp only [MainVariant.evaluate, hhit]
  rw [if_pos hlum]

/-- Witness for C5: a ray hitting a sphere of unrecognized material 7 (fully
absorbing, zero scatter) drops the throughput luminance to 0 < 0.01, so the
path stops immediately with the zero color. -/
theorem C5_luminance_early_out_witness :
    MainVariant.evaluate sceneAbsorb (fun _ => Vec3.splat 0) 1
      ⟨⟨0, 0, 0⟩, ⟨0, 0, 1⟩⟩ (Vec3.splat 1) = Vec3.splat 0 := by
  have hsph : intersect_sphere ⟨⟨0, 0, 0⟩, ⟨0, 0, 1⟩⟩ ⟨0, 0, 3⟩ 1 =
      some (2, ⟨0, 0, -1⟩) := by
    have h1 : ((⟨⟨0, 0, 0⟩, ⟨0, 0, 1⟩⟩ : Ray).origin - ⟨0, 0, 3⟩ : Vec3) =
        ⟨0, 0, -3⟩ := by
      ext <;> norm_num
    rw [intersect_sphere]
    simp only [h1]
    norm_num [dot, magnitude_squared, safe_sqrt, Real.sqrt_one]
    rw [show ((⟨0, 0, 1⟩ : Vec3) * (2 : ℝ) + ⟨0, 0, -3⟩ : Vec3) = ⟨0, 0, -1⟩ by
      ext <;> norm_num]
    exact normalize_neg_z
  have hhit : Scene.intersect sceneAbsorb ⟨⟨0, 0, 0⟩, ⟨0, 0, 1⟩⟩ =
      some (2, ⟨0, 0, -1⟩, 7) := by
    rw [Scene.intersect]
    simp only [sceneAbsorb, List.foldl, hsph, updateBest]
  exact C5_luminance_early_out sceneAbsorb (fun _ => Vec3.splat 0) 0
    ⟨⟨0, 0, 0⟩, ⟨0, 0, 1⟩⟩ (Vec3.splat 1) 2 ⟨0, 0, -1⟩ 7 hhit
    (by norm_num [MainVariant.bsdf, get_luminance, dot, Vec3.splat])

/-- C9: after make_same_side, the (possibly flipped) incident direction lies
on the same side of the surface as the outgoing direction: for every outgoing
direction, unit normal, and incident direction whose dot products with the
normal are nonzero, dot(outgoing, normal) * dot(result, normal) ≥ 0. -/
theorem C9_make_same_side_nonneg (outgoing normal incident : Vec3)
    (hn : magnitude_squared normal = 1)
    (ho : dot outgoing normal ≠ 0) (hi : dot incident normal ≠ 0) :
    0 ≤ dot outgoing normal * dot (make_same_side outgoing normal incident) normal := by
  unfold make_same_side
  split_ifs with h
  · have hn' : normal.x * normal.x + normal.y * normal.y + normal.z * normal.z = 1 := by
      simpa [magnitude_squared, dot] using hn
    have hrefl : dot (reflect (-incident) normal) normal = -(dot incident normal) := by
      simp only [reflect, dot, Vec3.sub_x, Vec3.sub_y, Vec3.sub_z,
        Vec3.smul_x, Vec3.smul_y, Vec3.smul_z, Vec3.neg_x, Vec3.neg_y, Vec3.neg_z]
      linear_combination (-2 * (incident.x * normal.x + incident.y * normal.y +
        incident.z * normal.z)) * hn'
    rw [hrefl, mul_neg]
    linarith [h]
  · exact not_lt.mp h

/-- Witness for C9 at outgoing = normal = (0,0,1), incident = (0,0,-1). -/
theorem C9_make_same_side_nonneg_witness :
    0 ≤ dot ⟨0, 0, 1⟩ ⟨0, 0, 1⟩ *
      dot (make_same_side ⟨0, 0, 1⟩ ⟨0, 0, 1⟩ ⟨0, 0, -1⟩) ⟨0, 0, 1⟩ :=
  C9_make_same_side_nonneg ⟨0, 0, 1⟩ ⟨0, 0, 1⟩ ⟨0, 0, -1⟩
    (by norm_num [magnitude_squared, dot])
    (by norm_num [dot]) (by norm_num [dot])

/-- C10: reflection about a unit normal is an involution:
reflect(reflect(v, n), n) = v for every vector v and unit normal n. -/
theorem C10_reflect_involution (v n : Vec3) (hn : magnitude_squared n = 1) :
    reflect (reflect v n) n = v := by
  simp only [magnitude_squared, dot] at hn
  ext
  · simp only [reflect, dot, Vec3.sub_x, Vec3.sub_y, Vec3.sub_z,
      Vec3.smul_x, Vec3.smul_y, Vec3.smul_z]
    linear_combination (4 * (v.x * n.x + v.y * n.y + v.z * n.z) * n.x) * hn
  · simp only [reflect, dot, Vec3.sub_x, Vec3.sub_y, Vec3.sub_z,
      Vec3.smul_x, Vec3.smul_y, Vec3.smul_z]
    linear_combination (4 * (v.x * n.x + v.y * n.y + v.z * n.z) * n.y) * hn
  · simp only [reflect, dot, Vec3.sub_x, Vec3.sub_y, Vec3.sub_z,
      Vec3.smul_x, Vec3.smul_y, Vec3.smul_z]
    linear_combination (4 * (v.x * n.x + v.y * n.y + v.z * n.z) * n.z) * hn

/-- Witness for C10 at v = (1,2,3), n = (0,0,1). -/
theorem C10_reflect_involution_witness :
    reflect (reflect ⟨1, 2, 3⟩ ⟨0, 0, 1⟩) ⟨0, 0, 1⟩ = (⟨1, 2, 3⟩ : Vec3) :=
  C10_reflect_involution ⟨1, 2, 3⟩ ⟨0, 0, 1⟩ (by norm_num [magnitude_squared, dot])

end Pathtracer
